import Mathlib

/-!
Shallow embedding of the `httpd` HTTP/1.1 server engine (request decoding,
body framing, chunked transfer encoding, response encoding, multipart
form decoding) and verification of its specification claims.

Bytes are modelled as `Nat` (one per octet), byte streams as `List Nat`,
and Go strings as Lean `String` or `List Char` where character-level
parsing is involved.  Buffered readers (`bufio.Reader`) over a connection
are modelled as the list of bytes still unread; a successful read consumes
a prefix of that list.
-/

namespace Httpd

/-- Bytes of a Go string (ASCII data throughout this development). -/
def strBytes (s : String) : List Nat := s.data.map Char.toNat

/-- The CRLF delimiter bytes. -/
def crlfB : List Nat := [13, 10]

/-- Read errors surfaced by the reader models: end of data (`io.EOF`) or a
protocol error carrying the Go error message. -/
inductive RdErr
  | eofE : RdErr
  | protoErr : String → RdErr
deriving Repr, DecidableEq

/-! ## Header

Modelled from the spec: the `Header` type with its `Get`/`Set` operations is
referenced by the sources (`readHeader`, `Header.Get`, `Header.Set`) but its
definition file is not among the provided sources.  Per spec §3, it is an
insertion-ordered multimap from field name (exact, no case folding) to values;
lookup by exact name returns the first value or the empty string.  We model it
as the insertion-ordered list of (name, value) pairs. -/
abbrev HeaderL : Type := List (String × String)

/-- `Header.Get`: first value stored under the exact name, or `""`. -/
def hdrGet (h : HeaderL) (k : String) : String :=
  match h with
  | [] => ""
  | (k', v) :: rest => if k' = k then v else hdrGet rest k

/-- `Header.Set`: replace the value under `k`, or append a new entry. -/
def hdrSet (h : HeaderL) (k v : String) : HeaderL :=
  match h with
  | [] => [(k, v)]
  | (k', v') :: rest => if k' = k then (k, v) :: rest else (k', v') :: hdrSet rest k v

/-! ## chunkReader.discardCRLF and MultipartReader.discardCRLF

Each routine does `io.ReadFull` of two bytes from the buffered reader and is
meant to fail unless they are `\r\n`.  The models return the error outcome
(`none` = success) and the remaining stream.

`chunkReader.discardCRLF` (chunk.go:48-55) checks the two bytes only inside
the `err != nil` branch of the `ReadFull` result; on a successful read it
returns `nil` without inspecting the bytes.

`MultipartReader.discardCRLF` (chunk.go:292-299) checks the bytes on the
successful branch but joins the two comparisons with `&&`: it errors only
when *both* bytes differ from their expected values. -/

/-- Model of `chunkReader.discardCRLF`.  A stream of length ≥ 2 makes
`io.ReadFull` succeed, and the source then returns `nil` with no byte check
(the check is guarded by `err != nil`).  On a short read the bytes read so
far (zero-padded) are checked. -/
def ChunkReader.discardCRLF (s : List Nat) : Option RdErr × List Nat :=
  if 2 ≤ s.length then
    (none, s.drop 2)
  else if s.getD 0 0 ≠ 13 ∨ s.getD 1 0 ≠ 10 then
    (some (RdErr.protoErr "unsupported encoding format of chunk"), [])
  else
    (some RdErr.eofE, [])

/-- Model of `MultipartReader.discardCRLF`.  On a successful two-byte read it
errors only when the first byte differs from `\r` *and* the second differs
from `\n` (the source uses `&&`). -/
def MultipartReader.discardCRLF (s : List Nat) : Option RdErr × List Nat :=
  if 2 ≤ s.length then
    if s.getD 0 0 ≠ 13 ∧ s.getD 1 0 ≠ 10 then
      (some (RdErr.protoErr "expect crlf"), s.drop 2)
    else
      (none, s.drop 2)
  else
    (some RdErr.eofE, [])

/-! ## setupResponse: the close-after-reply decision (response.go:34-53)

`fmt.Sscanf(req.Proto, "HTTP/%d%d", &protoMinor, &protoMajor)` matches the
literal `HTTP/`, then reads one decimal integer into the first argument; the
second `%d` immediately tries to read another integer, which fails on the `.`
of `HTTP/1.1`, leaving the second argument `0`.  (Variable names follow the
source: the first scanned number is called `protoMinor` although it is the
major version.) -/

/-- Digits of a decimal prefix. -/
def takeDigits : List Char → List Char × List Char
  | [] => ([], [])
  | c :: rest =>
      if '0' ≤ c ∧ c ≤ '9' then
        let (ds, r) := takeDigits rest
        (c :: ds, r)
      else ([], c :: rest)

/-- Numeric value of a list of decimal digit characters. -/
def digitsVal (ds : List Char) : Nat :=
  ds.foldl (fun acc c => acc * 10 + (c.toNat - '0'.toNat)) 0

/-- Model of `fmt.Sscanf(proto, "HTTP/%d%d", &a, &b)`: returns `(a, b)`,
each left `0` when its verb fails to scan. -/
def sscanfHTTPdd (proto : String) : Int × Int :=
  match proto.data with
  | 'H' :: 'T' :: 'T' :: 'P' :: '/' :: rest =>
      match takeDigits rest with
      | ([], _) => (0, 0)
      | (ds, r) =>
          match takeDigits r with
          | ([], _) => ((digitsVal ds : Int), 0)
          | (ds2, _) => ((digitsVal ds : Int), (digitsVal ds2 : Int))
  | _ => (0, 0)

/-- Model of the `closeAfterReply` decision of `setupResponse`
(response.go:44-51): note the header name the source looks up is
`"Connectioni"`. -/
def setupCloseAfterReply (proto : String) (hdr : HeaderL) : Bool :=
  let pm := sscanfHTTPdd proto
  let protoMinor := pm.1
  let protoMajor := pm.2
  decide (protoMinor < 1) || (decide (protoMinor = 1) && decide (protoMajor = 0))
    || decide (hdrGet hdr "Connectioni" = "close")

/-- Model of the loop-exit decision in `conn.serve` (part_001:45-51): the
connection closes after the reply iff `finishRequest` returned an error or
`resp.closeAfterReply` is set. -/
def serveCloses (finishErr : Bool) (closeAfterReply : Bool) : Bool :=
  finishErr || closeAfterReply

/-! ## Character-level parsing helpers (Go strings package models) -/

/-- Model of `strings.Split(s, sep)` for a one-character separator: splits at
every occurrence; always returns at least one (possibly empty) piece. -/
def splitOnChar (sep : Char) : List Char → List (List Char)
  | [] => [[]]
  | c :: rest =>
      let r := splitOnChar sep rest
      if c = sep then [] :: r
      else
        match r with
        | [] => [[c]]
        | h :: t => (c :: h) :: t

/-- Go `unicode.IsSpace` restricted to the ASCII whitespace this protocol
uses. -/
def isSpaceChar (c : Char) : Bool := c = ' ' || c = '\t' || c = '\n' || c = '\r'

/-- Model of `strings.TrimSpace`. -/
def trimSpaceC (l : List Char) : List Char :=
  ((l.dropWhile isSpaceChar).reverse.dropWhile isSpaceChar).reverse

/-- Model of `strings.Trim(s, cutset)` for a one-character cutset. -/
def trimCharC (c : Char) (l : List Char) : List Char :=
  ((l.dropWhile (· = c)).reverse.dropWhile (· = c)).reverse

/-- ASCII lower-casing, as `strings.ToLower` acts on the header tokens in
this engine. -/
def toLowerC (l : List Char) : List Char :=
  l.map fun c => if 'A' ≤ c ∧ c ≤ 'Z' then Char.ofNat (c.toNat + 32) else c

/-- Model of `strings.IndexByte`: position of the first occurrence. -/
def idxOfChar (c : Char) : List Char → Option Nat
  | [] => none
  | x :: rest => if x = c then some 0 else (idxOfChar c rest).map (· + 1)

/-! ## Request.parseContentType (part_002:198-215) and parseForm (part_002:175-188) -/

/-- Model of `Request.parseContentType`, returning the resulting
`(r.contentType, r.boundary)` pair (both start out as the empty string and
are assigned only on the single assignment at the end of the source). -/
def parseContentType (ct : List Char) : List Char × List Char :=
  match idxOfChar ';' ct with
  | none => (ct, [])
  | some i =>
      if i = ct.length - 1 then ([], [])
      else
        let ss := splitOnChar '=' (ct.drop (i + 1))
        if ss.length < 2 ∨ trimSpaceC (ss.getD 0 []) ≠ "boundary".data then ([], [])
        else (ct.take i, trimCharC '"' (ss.getD 1 []))

/-- Outcome of `Request.parseForm`'s dispatch on method and stored content
type. -/
inductive FormSel
  | postFormSel : FormSel
  | multipartSel : FormSel
  | errMissingBody : FormSel
  | errUnsupported : FormSel
deriving Repr, DecidableEq

/-- Model of `Request.parseForm`'s control flow: the method gate and the
`switch r.contentType`. -/
def parseFormSel (method : String) (contentType : List Char) : FormSel :=
  if method ≠ "POST" ∧ method ≠ "PUT" then FormSel.errMissingBody
  else if contentType = "application/x-www-form-urlencoded".data then FormSel.postFormSel
  else if contentType = "multipart/form-data".data then FormSel.multipartSel
  else FormSel.errUnsupported

/-! ## getKV and Part.parseFormData (chunk.go:368-392) -/

/-- Model of `getKV`: splits on `=` and requires exactly two pieces, else
returns two empty strings. -/
def getKV (s : List Char) : List Char × List Char :=
  let ss := splitOnChar '=' s
  if ss.length ≠ 2 then ([], [])
  else (trimSpaceC (ss.getD 0 []), trimCharC '"' (ss.getD 1 []))

/-- Model of `Part.parseFormData`, returning `(formName, fileName)`. -/
def parseFormData (cd : List Char) : List Char × List Char :=
  let ss := splitOnChar ';' cd
  if ss.length = 1 ∨ toLowerC (ss.getD 0 []) ≠ "form-data".data then ([], [])
  else
    ss.foldl
      (fun acc s =>
        let kv := getKV s
        if kv.1 = "name".data then (kv.2, acc.2)
        else if kv.1 = "filename".data then (acc.1, kv.2)
        else acc)
      ([], [])

/-- Occurrences of a character in a list (used to phrase "more than one `=`
in a segment"). -/
def countChar (c : Char) (l : List Char) : Nat := (l.filter (· = c)).length

/-! ## readLine (part_002:356-370) over a byte stream

`readLine` delegates to `bufio.Reader.ReadLine`: the line is the bytes up to
the first `\n` (a trailing `\r` also removed); at end of input a partial
line is returned as-is, and reading at end of input with no data is an
error. -/

/-- Split a byte stream at its first `\n` (10), dropping the newline. -/
def splitAtNL : List Nat → Option (List Nat × List Nat)
  | [] => none
  | b :: rest =>
      if b = 10 then some ([], rest)
      else
        match splitAtNL rest with
        | some (l, r) => some (b :: l, r)
        | none => none

/-- Remove one trailing `\r` (13) if present. -/
def stripCR (l : List Nat) : List Nat :=
  if l.getLast? = some 13 then l.dropLast else l

/-- Model of `readLine` over the remaining stream: `none` models the error
returned at end of input with no data. -/
def readLineB (s : List Nat) : Option (List Nat × List Nat) :=
  match splitAtNL s with
  | some (l, r) => some (stripCR l, r)
  | none => if s = [] then none else some (s, [])

/-! ## chunkReader (chunk.go:12-76): chunked transfer decoding -/

/-- Hex value of one byte, in the source's case order (`a-f`, `A-F`,
`0-9`); `none` models the "illegal hex number" error. -/
def hexVal (b : Nat) : Option Nat :=
  if 97 ≤ b ∧ b ≤ 102 then some (b - 97 + 10)
  else if 65 ≤ b ∧ b ≤ 70 then some (b - 65 + 10)
  else if 48 ≤ b ∧ b ≤ 57 then some (b - 48)
  else none

/-- One iteration of `getChunkSize`'s loop: `chunkSize = chunkSize*16 + v`,
sticking at failure once a non-hex byte was seen. -/
def gcsStep (acc : Option Nat) (b : Nat) : Option Nat :=
  match acc, hexVal b with
  | some n, some v => some (n * 16 + v)
  | _, _ => none

/-- Model of `chunkReader.getChunkSize`'s digit loop over an already-read
line: accumulates `chunkSize*16 + v`, failing on any non-hex byte. -/
def getChunkSize (line : List Nat) : Option Nat :=
  line.foldl gcsStep (some 0)

/-- Reading the size line: `readLine` then the digit loop, with the source's
two error paths. -/
def getSizeLine (s : List Nat) : Except RdErr (Nat × List Nat) :=
  match readLineB s with
  | none => Except.error RdErr.eofE
  | some (line, s') =>
      match getChunkSize line with
      | none => Except.error (RdErr.protoErr "illegal hex number")
      | some n => Except.ok (n, s')

/-- The mutable fields of `chunkReader` (its buffered reader is threaded
separately as the remaining stream). -/
structure ChunkRd where
  n : Nat
  done : Bool
deriving Repr, DecidableEq

/-- Result of one reader call: bytes delivered, new reader state, remaining
stream, and error (if any). -/
structure ReadRes where
  bytes : List Nat
  st : ChunkRd
  rest : List Nat
  err : Option RdErr
deriving Repr, DecidableEq

/-- Model of `chunkReader.Read` with a caller buffer of length `plen` over
remaining stream `s`.  Mirrors chunk.go:19-46: terminal chunk marks `done`
and discards the trailer; a buffer not larger than the remaining chunk is
served by a plain buffered read with no delimiter handling; a larger buffer
drains the chunk via `ReadFull` (its error discarded, as in the source) and
then discards the chunk's CRLF. -/
def chunkRead (st : ChunkRd) (s : List Nat) (plen : Nat) : ReadRes :=
  if st.done then ⟨[], st, s, some RdErr.eofE⟩
  else
    match (if st.n = 0 then getSizeLine s else Except.ok (st.n, s)) with
    | Except.error e => ⟨[], st, s, some e⟩
    | Except.ok (m, s1) =>
        if m = 0 then
          let r := ChunkReader.discardCRLF s1
          ⟨[], ⟨0, true⟩, r.2, r.1⟩
        else if plen ≤ m then
          let bytes := s1.take plen
          ⟨bytes, ⟨m - bytes.length, false⟩, s1.drop plen,
            if bytes.isEmpty then some RdErr.eofE else none⟩
        else
          let bytes := s1.take m
          let r := ChunkReader.discardCRLF (s1.drop m)
          ⟨bytes, ⟨0, false⟩, r.2, r.1⟩

/-- Model of an `io.Copy`-style drain of the chunk reader: repeated reads
with buffer length `plen`, concatenating delivered bytes; `io.EOF` ends the
copy successfully, any other error is returned. -/
def chunkDrain (plen : Nat) : Nat → ChunkRd → List Nat → List Nat × Option RdErr
  | 0, _, _ => ([], some (RdErr.protoErr "out of fuel"))
  | fuel + 1, st, s =>
      let r := chunkRead st s plen
      match r.err with
      | some RdErr.eofE => (r.bytes, none)
      | some e => (r.bytes, some e)
      | none =>
          let rest := chunkDrain plen fuel r.st r.rest
          (r.bytes ++ rest.1, rest.2)

/-! ## chunkWriter framing (chunk.go:83-103) and the terminal chunk -/

/-- One lowercase hex digit byte, as `%x` renders it. -/
def hexDigitByte (n : Nat) : Nat := if n < 10 then 48 + n else 87 + n

/-- Bytes of `fmt.Sprintf("%x", n)`: minimal lowercase hex, `"0"` for 0. -/
def natToHexB (n : Nat) : List Nat :=
  if _h : n < 16 then [hexDigitByte n]
  else natToHexB (n / 16) ++ [hexDigitByte (n % 16)]
decreasing_by
  exact Nat.div_lt_self (by omega) (by omega)

/-- The bytes one `chunkWriter.Write` call emits for payload `p` when
`resp.chunking` is set: `%x\r\n`, the payload, `\r\n`. -/
def chunkFrame (p : List Nat) : List Nat :=
  natToHexB p.length ++ crlfB ++ p ++ crlfB

/-- The full chunked wire image of a sequence of writes: each write framed,
then the terminal `0\r\n\r\n` that `finishRequest` (part_002:273-278) emits
at end of handler. -/
def encodeChunks (cs : List (List Nat)) : List Nat :=
  (cs.map chunkFrame).flatten ++ [48, 13, 10, 13, 10]

/-! ## Request.setupBody (part_002:233-250) -/

/-- Model of `strconv.ParseInt(s, 10, 64)`: optional sign, all decimal
digits, 64-bit signed range; `none` models a parse error. -/
def parseIntGo (s : String) : Option Int :=
  match s.data with
  | [] => none
  | c :: rest =>
      let p : Bool × List Char :=
        if c = '-' then (true, rest)
        else if c = '+' then (false, rest)
        else (false, c :: rest)
      if p.2 = [] ∨ ¬ (p.2.all fun d => decide ('0' ≤ d ∧ d ≤ '9')) then none
      else
        let v : Int := if p.1 then -(digitsVal p.2 : Int) else (digitsVal p.2 : Int)
        if v < -(2 ^ 63) ∨ (2 ^ 63 - 1 : Int) < v then none else some v

/-- Model of `Request.chunked` (part_002:228-231). -/
def reqChunked (hdr : HeaderL) : Bool := hdrGet hdr "Transfer-Encoding" = "chunked"

/-- The reader installed as `r.Body`. -/
inductive BodyKind
  | eofR : BodyKind
  | chunkedR : BodyKind
  | limitR : Int → BodyKind
deriving Repr, DecidableEq

/-- Model of `Request.setupBody`'s selection of the body reader (the
`Expect: 100-continue` wrapper is modelled separately). -/
def setupBody (method : String) (hdr : HeaderL) : BodyKind :=
  if method ≠ "POST" ∧ method ≠ "PUT" then BodyKind.eofR
  else if reqChunked hdr then BodyKind.chunkedR
  else if hdrGet hdr "Content-Length" ≠ "" then
    match parseIntGo (hdrGet hdr "Content-Length") with
    | none => BodyKind.eofR
    | some n => BodyKind.limitR n
  else BodyKind.eofR

/-- All bytes a full drain of the selected body reader yields from remaining
stream `s`: an `eofReader` yields nothing, `io.LimitReader(bufr, n)` yields
the first `n` bytes (nothing when `n ≤ 0`), and the chunked reader yields
its decode (32 KiB copy buffer, ample fuel). -/
def bodyYield (bk : BodyKind) (s : List Nat) : List Nat :=
  match bk with
  | BodyKind.eofR => []
  | BodyKind.limitR n => s.take n.toNat
  | BodyKind.chunkedR => (chunkDrain 32768 (s.length + 2) ⟨0, false⟩ s).1

/-! ## The response encoder pipeline for C1

`setupResponse` builds `resp.bufw`, a 4 KiB `bufio.Writer` whose underlying
writer is the `chunkWriter`; the handler-facing `(*response).Write`
(response.go:55-61) nevertheless writes to `w.c.bufw`, the connection's
buffered writer.  Note also that `chunkWriter.Write` (chunk.go:91) frames
into `cw.resp.bufw` — the very buffer it underlies — so flushing a
*non-empty* `resp.bufw` re-enters itself and never completes; the model
returns `none` for that flush.  In the pipeline as written, handler output
never reaches `resp.bufw`, so its buffer stays empty. -/

/-- The response / connection output state relevant to C1. -/
structure Resp where
  header : HeaderL
  statusCode : Nat
  chunking : Bool
  cwWrote : Bool
  bufwBuf : List Nat
  connBuf : List Nat
deriving Repr, DecidableEq

/-- `setupResponse`'s fresh response (response.go:35-43). -/
def newResponse : Resp := ⟨[], 200, false, false, [], []⟩

/-- Model of `(*response).Write`: the source appends the handler's bytes to
`w.c.bufw` (the raw connection buffer), not to `w.bufw`. -/
def Resp.write (w : Resp) (p : List Nat) : Resp :=
  { w with connBuf := w.connBuf ++ p }

/-- Modelled from the spec: the `statusText` table (chunk.go:129 reads it)
is not among the provided sources; per spec §6 the status line carries a
reason phrase, and the only code this development exercises is 200. -/
def statusText (c : Nat) : String := if c = 200 then "OK" else ""

/-- The bytes `chunkWriter.writeHeader` (chunk.go:127-143) emits: status
line, one line per header entry, blank line.  (Go map iteration order is
unspecified; the model iterates insertion order, exact whenever at most one
header is set.) -/
def writeHeaderBytes (proto : String) (w : Resp) : List Nat :=
  strBytes (proto ++ " " ++ toString w.statusCode ++ " " ++ statusText w.statusCode ++ "\r\n")
    ++ (w.header.map fun kv => strBytes (kv.1 ++ ": " ++ kv.2 ++ "\r\n")).flatten
    ++ crlfB

/-- `chunkWriter.writeHeader` as a state update on the connection buffer. -/
def Resp.writeHeader (proto : String) (w : Resp) : Resp :=
  { w with connBuf := w.connBuf ++ writeHeaderBytes proto w }

/-- Flush of `resp.bufw`: empty buffer flushes as a no-op; a non-empty
buffer feeds `chunkWriter.Write`, which writes back into `resp.bufw` and
never terminates (`none`). -/
def flushBufw (w : Resp) : Option Resp :=
  if w.bufwBuf = [] then some w else none

/-- Model of `Request.finishRequest`'s response-side work (part_002:262-289):
flush `resp.bufw`; emit the terminal chunk when chunking; when no header was
written yet, set `Content-Length: 0` and write the header block; finally the
connection buffer is flushed to the wire (the model's `connBuf` is that wire
image). -/
def finishResponse (proto : String) (w : Resp) : Option Resp :=
  match flushBufw w with
  | none => none
  | some w1 =>
      let w2 :=
        if w1.chunking then { w1 with connBuf := w1.connBuf ++ [48, 13, 10, 13, 10] } else w1
      let w3 :=
        if ¬ w2.cwWrote then
          Resp.writeHeader proto { w2 with header := hdrSet w2.header "Content-Length" "0" }
        else w2
      some w3

/-- One whole request served: the handler performs the given `Write` calls
and returns; the result is the byte image on the connection, `none` if the
write path diverged. -/
def serveHandlerWrites (proto : String) (writes : List (List Nat)) : Option (List Nat) :=
  (finishResponse proto (writes.foldl Resp.write newResponse)).map Resp.connBuf

/-! ## expectContinueReader (part_002:41-54) and the finishRequest drain -/

/-- State of an `expectContinueReader` wrapping an underlying body reader
(abstracted to its remaining bytes) with the connection's buffered writer
(`out`, flushed on emission). -/
structure ECR where
  wroteContinue : Bool
  body : List Nat
  out : List Nat
deriving Repr, DecidableEq

/-- The interim response bytes the wrapper writes. -/
def continueLine : List Nat := strBytes "HTTP/1.1 100 Continue\r\n\r\n"

/-- Model of `expectContinueReader.Read`: on the first call, write and flush
the interim response, then delegate to the underlying reader. -/
def ECR.read (st : ECR) (k : Nat) : List Nat × ECR :=
  let st1 :=
    if st.wroteContinue then st
    else { st with out := st.out ++ continueLine, wroteContinue := true }
  (st1.body.take k, { st1 with body := st1.body.drop k })

/-- `io.Copy(ioutil.Discard, body)` as performed at the end of
`finishRequest` (part_002:291): repeated reads until the underlying reader
is exhausted. -/
def drainLoop : Nat → ECR → ECR
  | 0, st => st
  | fuel + 1, st =>
      let r := ECR.read st 32768
      if r.1.isEmpty then r.2 else drainLoop fuel r.2

/-- The body drain `finishRequest` performs, with ample fuel. -/
def finishDrain (st : ECR) : ECR := drainLoop (st.body.length + 1) st

/-! ## Part.Read (chunk.go:329-366) -/

/-- Model of `bytes.Index`: index of the first occurrence of `pat`. -/
def findSub (pat : List Nat) : List Nat → Option Nat
  | [] => if List.isPrefixOf pat [] then some 0 else none
  | b :: t =>
      if List.isPrefixOf pat (b :: t) then some 0
      else (findSub pat t).map (· + 1)

/-- The mutable state of a part read: the part's `closed` and
`substituteReader` fields (the substitute is `io.LimitReader(bufr, N)`,
represented by its remaining quota `N`), the multipart reader's
`occurEofErr`, and the buffered stream. -/
structure PartSt where
  closed : Bool
  occurEofErr : Bool
  subLimit : Option Int
  stream : List Nat
deriving Repr, DecidableEq

/-- One read from `io.LimitReader(bufr, N)` with buffer length `k`:
delivers nothing at quota ≤ 0 (`io.EOF`), else up to `min k N` buffered
bytes. -/
def limitRead (k : Nat) (N : Int) (s : List Nat) : List Nat × List Nat × Int × Option RdErr :=
  if N ≤ 0 then ([], s, N, some RdErr.eofE)
  else
    let t := min k N.toNat
    let bs := s.take t
    (bs, s.drop t, N - bs.length, if bs.isEmpty then some RdErr.eofE else none)

/-- Model of `Part.Read` with buffer length `k` against delimiter
`delim = crlfDashBoundary`.  Mirrors chunk.go:329-366: a short peek sets
`occurEofErr` and retries with the whole buffered remainder; if the
delimiter is found *or* end-of-stream was hit, the source installs
`io.LimitReader(bufr, int64(index))` — with `index = -1` when the delimiter
is absent at end-of-stream — and reads from it; otherwise it reads at most
`bufSize - len(delim) + 1` bytes. -/
def partRead (delim : List Nat) (k : Nat) (st : PartSt) : List Nat × PartSt × Option RdErr :=
  if st.closed then ([], st, some RdErr.eofE)
  else
    match st.subLimit with
    | some N =>
        let r := limitRead k N st.stream
        (r.1, { st with stream := r.2.1, subLimit := some r.2.2.1 }, r.2.2.2)
    | none =>
        let eofNow := st.occurEofErr || decide (st.stream.length < 4096)
        let peek := if eofNow then st.stream else st.stream.take 4096
        let idx := findSub delim peek
        if idx.isSome || eofNow then
          let N : Int := match idx with | some i => (i : Int) | none => -1
          let r := limitRead k N st.stream
          (r.1, { st with occurEofErr := eofNow, stream := r.2.1, subLimit := some r.2.2.1 },
            r.2.2.2)
        else
          let maxRead := min (4096 - delim.length + 1) k
          let bs := st.stream.take maxRead
          (bs, { st with occurEofErr := eofNow, stream := st.stream.drop maxRead },
            if bs.isEmpty then some RdErr.eofE else none)

/-- Drain a part: repeated `Part.Read` calls concatenated until any error
(`io.EOF` included) stops the copy. -/
def partDrain (delim : List Nat) : Nat → PartSt → List Nat
  | 0, _ => []
  | fuel + 1, st =>
      let r := partRead delim 512 st
      match r.2.2 with
      | some _ => r.1
      | none => r.1 ++ partDrain delim fuel r.2.1

/-! ## MultipartReader.ReadForm aggregation (chunk.go:181-256)

The aggregation decisions depend only on each part's form name, file name
and content length, so parts are abstracted to that metadata; text values
and in-memory file contents are tracked by their sizes, and temporary files
by numeric identities (`liveTmp` is the set of temp files currently on
disk). -/

/-- Where an accepted file part's content lives. -/
inductive FileLoc
  | inMem : Nat → FileLoc
  | onDisk : Nat → Nat → FileLoc
deriving Repr, DecidableEq

/-- One part's aggregation-relevant data. -/
structure PartMeta where
  formName : String
  fileName : String
  size : Nat
deriving Repr, DecidableEq

/-- The `ReadForm` loop state. -/
structure FormState where
  nonFileMax : Int
  fileMax : Int
  valueMap : List (String × Nat)
  fileMap : List (String × FileLoc)
  liveTmp : List Nat
  nextTmp : Nat
deriving Repr, DecidableEq

/-- Association-list lookup (Go map read). -/
def alistGet? {β : Type} : List (String × β) → String → Option β
  | [], _ => none
  | (k', v) :: rest, k => if k' = k then some v else alistGet? rest k

/-- Association-list update (Go map assignment). -/
def alistSet {β : Type} : List (String × β) → String → β → List (String × β)
  | [], k, v => [(k, v)]
  | (k', v') :: rest, k, v =>
      if k' = k then (k, v) :: rest else (k', v') :: alistSet rest k v

/-- One iteration of the `ReadForm` loop body for a part.  `io.CopyN(buf,
part, limit+1)` delivers `min(size, limit+1)` bytes; a text part then debits
the aggregate text budget and errors when it goes negative; a file part is
kept in memory when `fileMaxMemory >= n` (debiting that budget), else the
whole part is streamed to a fresh temp file, and only on that path is a
previously registered temp file under the same name removed. -/
def formStep (st : FormState) (p : PartMeta) : Except String FormState :=
  if p.formName = "" then Except.ok st
  else if p.fileName = "" then
    let n : Int := min (p.size : Int) (st.nonFileMax + 1)
    let rem := st.nonFileMax - n
    if rem < 0 then Except.error "multipart: message too large"
    else
      Except.ok
        { st with nonFileMax := rem, valueMap := alistSet st.valueMap p.formName p.size }
  else
    let n : Int := min (p.size : Int) (st.fileMax + 1)
    if n ≤ st.fileMax then
      Except.ok
        { st with fileMax := st.fileMax - n,
                  fileMap := alistSet st.fileMap p.formName (FileLoc.inMem n.toNat) }
    else
      let id := st.nextTmp
      let live1 :=
        match alistGet? st.fileMap p.formName with
        | some (FileLoc.onDisk _ oldId) => (st.liveTmp.filter (· ≠ oldId)) ++ [id]
        | _ => st.liveTmp ++ [id]
      Except.ok
        { st with nextTmp := id + 1, liveTmp := live1,
                  fileMap := alistSet st.fileMap p.formName (FileLoc.onDisk p.size id) }

/-- `ReadForm` aggregation over a part sequence, with the source's initial
budgets `10 << 20` and `30 << 20`. -/
def readFormAgg (parts : List PartMeta) : Except String FormState :=
  parts.foldlM formStep ⟨10485760, 31457280, [], [], [], 0⟩

/-! ## Theorems for C3 and C2 -/

/-- **C3** (code_bug evidence).  Each delimiter-discarding routine is claimed
to succeed only when the two bytes read are exactly `\r\n`.  Evaluating the
models at two-byte inputs read successfully: `chunkReader.discardCRLF`
accepts the bytes `"XX"` (no error), and `MultipartReader.discardCRLF`
accepts `"\rX"` (no error), both of which the claim requires to be protocol
errors. -/
theorem c3_discardCRLF_accepts_non_crlf :
    (ChunkReader.discardCRLF [88, 88]).1 = none ∧
    (MultipartReader.discardCRLF [13, 88]).1 = none ∧
    ([88, 88] ≠ crlfB ∧ [13, 88] ≠ crlfB) := by
  refine ⟨rfl, rfl, by decide, by decide⟩

/-- **C2** (code_bug evidence).  The claim states that for an HTTP/1.1
request with no `Connection: close` header and no write error the loop
continues on the same connection, and that a request whose `Connection`
header requests closure closes.  Evaluating the code's decision:
`setupCloseAfterReply "HTTP/1.1" [] = true` (the `Sscanf` format `HTTP/%d%d`
leaves the second number `0`, so the `protoMajor == 0` test fires and the
serve loop closes), and a request carrying `Connection: close` whose
version check passes is *not* closed (the source looks up `"Connectioni"`).
An HTTP/1.0 request does close, as the claim requires. -/
theorem c2_http11_always_closes :
    serveCloses false (setupCloseAfterReply "HTTP/1.1" []) = true ∧
    serveCloses false
      (setupCloseAfterReply "HTTP/11" [("Connection", "close")]) = false ∧
    serveCloses false (setupCloseAfterReply "HTTP/1.0" []) = true := by
  refine ⟨rfl, rfl, rfl⟩

/-- **C1** (code_bug evidence).  The claim requires the wire bytes of any
response with a body to begin with the status line and header block.
Evaluating the pipeline for a handler that writes the two body bytes
`"hi"`: the connection image starts with those body bytes, and the status
line (`HTTP/...`) is not a prefix of it — `(*response).Write` sent the
handler's bytes to `w.c.bufw`, bypassing `resp.bufw`/`chunkWriter`, and
`finishRequest` appended the header block afterwards. -/
theorem c1_body_bytes_precede_header_block :
    (serveHandlerWrites "HTTP/1.1" [[104, 105]]).isSome = true ∧
    ((serveHandlerWrites "HTTP/1.1" [[104, 105]]).getD []).take 2 = [104, 105] ∧
    List.isPrefixOf (strBytes "HTTP/")
      ((serveHandlerWrites "HTTP/1.1" [[104, 105]]).getD []) = false := by
  refine ⟨rfl, rfl, by decide⟩

/-- **C4** (counterexample).  The claim states that when the handler never
reads the body, the interim `100 Continue` response is never sent on the
connection during the whole request lifetime, including request
finalization.  Concretely: for a request with a three-byte body wrapped in
the `Expect: 100-continue` reader, on which the handler performed zero
reads, the body drain in `finishRequest` emits (and flushes) the interim
response: the connection output after finalization is the continue line,
not empty. -/
theorem c4_continue_sent_by_finalization_drain :
    (finishDrain ⟨false, [97, 98, 99], []⟩).out = continueLine ∧
    continueLine ≠ [] := by
  refine ⟨rfl, by decide⟩

/-- The drain loop never emits anything further once `wroteContinue` is
set. -/
theorem drainLoop_out_stable :
    ∀ (fuel : Nat) (st : ECR), st.wroteContinue = true →
      (drainLoop fuel st).out = st.out := by
  intro fuel
  induction fuel with
  | zero => intro st _; rfl
  | succ f ih =>
      intro st h
      show (if (ECR.read st 32768).1.isEmpty then (ECR.read st 32768).2
            else drainLoop f (ECR.read st 32768).2).out = st.out
      have hr : (ECR.read st 32768).2 = { st with body := st.body.drop 32768 } := by
        simp [ECR.read, h]
      have hw : (ECR.read st 32768).2.wroteContinue = true := by rw [hr]; exact h
      by_cases he : (ECR.read st 32768).1.isEmpty
      · rw [if_pos he, hr]
      · rw [if_neg he, ih _ hw, hr]

/-- **C4** (amended).  The interim `100 Continue` line is emitted and
flushed exactly once, on the first read of the wrapped body reader and
before that read delegates to the underlying reader; reads after the first
emit nothing; and if the handler never reads the body, the body drain in
`finishRequest` performs that first read, so the interim response is still
emitted during request finalization. -/
theorem c4_amended_continue_once_on_first_read :
    (∀ (st : ECR) (k : Nat), st.wroteContinue = false →
        (ECR.read st k).2.out = st.out ++ continueLine ∧
        (ECR.read st k).2.wroteContinue = true ∧
        (ECR.read st k).1 = st.body.take k) ∧
    (∀ (st : ECR) (k : Nat), st.wroteContinue = true →
        (ECR.read st k).2.out = st.out ∧ (ECR.read st k).1 = st.body.take k) ∧
    (∀ (body out0 : List Nat),
        (finishDrain ⟨false, body, out0⟩).out = out0 ++ continueLine) := by
  refine ⟨?_, ?_, ?_⟩
  · intro st k h
    refine ⟨?_, ?_, ?_⟩ <;> simp [ECR.read, h]
  · intro st k h
    refine ⟨?_, ?_⟩ <;> simp [ECR.read, h]
  · intro body out0
    show (drainLoop (body.length + 1) ⟨false, body, out0⟩).out = out0 ++ continueLine
    have hread : ECR.read ⟨false, body, out0⟩ 32768
        = (body.take 32768, ⟨true, body.drop 32768, out0 ++ continueLine⟩) := by
      simp [ECR.read]
    show (if (ECR.read ⟨false, body, out0⟩ 32768).1.isEmpty
          then (ECR.read ⟨false, body, out0⟩ 32768).2
          else drainLoop body.length (ECR.read ⟨false, body, out0⟩ 32768).2).out
        = out0 ++ continueLine
    rw [hread]
    by_cases he : (body.take 32768).isEmpty
    · simp [he]
    · rw [if_neg he]
      exact drainLoop_out_stable body.length ⟨true, body.drop 32768, out0 ++ continueLine⟩ rfl

/-- Witness for the amended C4 theorem at concrete inputs. -/
theorem c4_amended_witness :
    (ECR.read ⟨false, [97], []⟩ 3).2.out = [] ++ continueLine ∧
    (finishDrain ⟨false, [97, 98], []⟩).out = [] ++ continueLine :=
  ⟨(c4_amended_continue_once_on_first_read.1 ⟨false, [97], []⟩ 3 rfl).1,
   c4_amended_continue_once_on_first_read.2.2 [97, 98] []⟩

/-- **C7** (code_bug evidence).  The claim states that once end-of-stream
is reached, all remaining buffered bytes (here `"data"`, with no delimiter
occurrence) are still yielded as part content.  Evaluating `Part.Read` at
that input: the peek hits end-of-stream, `bytes.Index` returns `-1`, and
the source installs `io.LimitReader(bufr, int64(-1))`, so the drain yields
nothing instead of the four remaining bytes. -/
theorem c7_eof_remaining_bytes_dropped :
    partDrain (strBytes "\r\n--b") 5 ⟨false, false, none, [100, 97, 116, 97]⟩ = [] ∧
    [100, 97, 116, 97] ≠ ([] : List Nat) := by
  refine ⟨by decide, by decide⟩

/-- **C8** (counterexample).  The claim states (a) that the 30 MiB
in-memory file ceiling is per-file, and (b) that *whenever* a file part
replaces a previously-registered file under the same field name, the
previous entry's temporary file is removed before replacement.  Concretely:
after a 30 MiB + 1 byte part under name `"f"` (spilled to temp file `0`)
is replaced by a 1 KiB in-memory part under the same name, temp file `0`
is still on disk (`liveTmp = [0]`, not `[]`); and the second of two 20 MiB
file parts is spilled to disk even though 20 MiB does not exceed 30 MiB,
because the budget is aggregate. -/
theorem c8_replacement_leaves_tmp_file :
    (readFormAgg [⟨"f", "a.bin", 31457281⟩, ⟨"f", "b.bin", 1024⟩]).toOption.map
        FormState.liveTmp = some [0] ∧
    (readFormAgg [⟨"f", "a.bin", 31457281⟩, ⟨"f", "b.bin", 1024⟩]).toOption.map
        (fun st => alistGet? st.fileMap "f") = some (some (FileLoc.inMem 1024)) ∧
    (readFormAgg [⟨"a", "f1", 20971520⟩, ⟨"b", "f2", 20971520⟩]).toOption.map
        (fun st => alistGet? st.fileMap "b") = some (some (FileLoc.onDisk 20971520 0)) ∧
    (20971520 : Int) ≤ 31457280 ∧ ([0] : List Nat) ≠ [] := by
  refine ⟨by decide, by decide, by decide, by decide, by decide⟩

/-- **C8** (amended).  During form aggregation: a text part whose size
exceeds the *remaining* aggregate text budget (initially 10 MiB) aborts the
whole parse with an error, and an accepted text part debits that budget; a
file part whose size exceeds the *remaining* aggregate in-memory file
budget (initially 30 MiB) is streamed to a fresh temporary file, and only
on that spill path is a previously-registered temp file under the same
name removed, while an accepted in-memory file part debits the file budget
and leaves `liveTmp` untouched (so an in-memory replacement leaves the
previous entry's temp file on disk); the last part for a given name wins
in the map. -/
theorem c8_amended_form_aggregation :
    (∀ (st : FormState) (p : PartMeta), p.formName ≠ "" → p.fileName = "" →
        st.nonFileMax < (p.size : Int) →
        formStep st p = Except.error "multipart: message too large") ∧
    (∀ (st : FormState) (p : PartMeta), p.formName ≠ "" → p.fileName = "" →
        (p.size : Int) ≤ st.nonFileMax →
        formStep st p = Except.ok
          { st with nonFileMax := st.nonFileMax - p.size,
                    valueMap := alistSet st.valueMap p.formName p.size }) ∧
    (∀ (st : FormState) (p : PartMeta), p.formName ≠ "" → p.fileName ≠ "" →
        st.fileMax < (p.size : Int) →
        formStep st p = Except.ok
          { st with nextTmp := st.nextTmp + 1,
                    liveTmp :=
                      (match alistGet? st.fileMap p.formName with
                       | some (FileLoc.onDisk _ oldId) =>
                           (st.liveTmp.filter (· ≠ oldId)) ++ [st.nextTmp]
                       | _ => st.liveTmp ++ [st.nextTmp]),
                    fileMap :=
                      alistSet st.fileMap p.formName (FileLoc.onDisk p.size st.nextTmp) }) ∧
    (∀ (st : FormState) (p : PartMeta), p.formName ≠ "" → p.fileName ≠ "" →
        (p.size : Int) ≤ st.fileMax →
        formStep st p = Except.ok
          { st with fileMax := st.fileMax - p.size,
                    fileMap := alistSet st.fileMap p.formName (FileLoc.inMem p.size) }) ∧
    (∀ (fm : List (String × FileLoc)) (name : String) (loc : FileLoc),
        alistGet? (alistSet fm name loc) name = some loc) := by
  refine ⟨?_, ?_, ?_, ?_, ?_⟩
  · intro st p h1 h2 h3
    have hn : min (p.size : Int) (st.nonFileMax + 1) = st.nonFileMax + 1 := by omega
    have hc : st.nonFileMax - (st.nonFileMax + 1) < 0 := by omega
    simp only [formStep, if_neg h1, h2, eq_self_iff_true, if_true, hn, if_pos hc]
  · intro st p h1 h2 h3
    have hn : min (p.size : Int) (st.nonFileMax + 1) = (p.size : Int) := by omega
    have hc : ¬ (st.nonFileMax - (p.size : Int) < 0) := by omega
    simp only [formStep, if_neg h1, h2, eq_self_iff_true, if_true, hn, if_neg hc]
  · intro st p h1 h2 h3
    have hn : min (p.size : Int) (st.fileMax + 1) = st.fileMax + 1 := by omega
    have hc : ¬ (st.fileMax + 1 ≤ st.fileMax) := by omega
    simp only [formStep, if_neg h1, if_neg h2, hn, if_neg hc]
  · intro st p h1 h2 h3
    have hn : min (p.size : Int) (st.fileMax + 1) = (p.size : Int) := by omega
    simp only [formStep, if_neg h1, if_neg h2, hn, if_pos h3, Int.toNat_natCast]
  · intro fm name loc
    induction fm with
    | nil => simp [alistSet, alistGet?]
    | cons kv rest ih =>
        by_cases h : kv.1 = name
        · simp [alistSet, alistGet?, h]
        · simp [alistSet, alistGet?, h, ih]

/-- Witness for the amended C8 theorem at concrete inputs. -/
theorem c8_amended_witness :
    formStep ⟨10485760, 31457280, [], [], [], 0⟩ ⟨"t", "", 10485761⟩
      = Except.error "multipart: message too large" ∧
    formStep ⟨10485760, 31457280, [], [], [], 0⟩ ⟨"t", "", 4⟩
      = Except.ok ⟨10485756, 31457280, [("t", 4)], [], [], 0⟩ ∧
    formStep ⟨10485760, 31457280, [], [], [], 0⟩ ⟨"f", "x.bin", 31457281⟩
      = Except.ok ⟨10485760, 31457280, [], [("f", FileLoc.onDisk 31457281 0)], [0], 1⟩ ∧
    formStep ⟨10485760, 31457280, [], [], [], 0⟩ ⟨"f", "x.bin", 7⟩
      = Except.ok ⟨10485760, 31457273, [], [("f", FileLoc.inMem 7)], [], 0⟩ ∧
    alistGet? (alistSet [] "f" (FileLoc.inMem 7)) "f" = some (FileLoc.inMem 7) :=
  ⟨c8_amended_form_aggregation.1 ⟨10485760, 31457280, [], [], [], 0⟩ ⟨"t", "", 10485761⟩
      (by decide) rfl (by decide),
   c8_amended_form_aggregation.2.1 ⟨10485760, 31457280, [], [], [], 0⟩ ⟨"t", "", 4⟩
      (by decide) rfl (by decide),
   c8_amended_form_aggregation.2.2.1 ⟨10485760, 31457280, [], [], [], 0⟩ ⟨"f", "x.bin", 31457281⟩
      (by decide) (by decide) (by decide),
   c8_amended_form_aggregation.2.2.2.1 ⟨10485760, 31457280, [], [], [], 0⟩ ⟨"f", "x.bin", 7⟩
      (by decide) (by decide) (by decide),
   c8_amended_form_aggregation.2.2.2.2 [] "f" (FileLoc.inMem 7)⟩

/-- **C9** (confirmed).  For every Content-Type value containing a `;`
whose following text is not a `boundary=` parameter, `parseContentType`
returns early and leaves the stored content type (and boundary) empty —
it never assigns the media type before the `;` — and every later
`parseForm` dispatch on a POST or PUT request with that stored content
type hits the `default` case, the unsupported-form-type error. -/
theorem c9_non_boundary_param_clears_content_type :
    ∀ (ct : List Char) (i : Nat), idxOfChar ';' ct = some i →
      ((splitOnChar '=' (ct.drop (i + 1))).length < 2 ∨
        trimSpaceC ((splitOnChar '=' (ct.drop (i + 1))).getD 0 []) ≠ "boundary".data) →
      parseContentType ct = ([], []) ∧
      ∀ method : String, method = "POST" ∨ method = "PUT" →
        parseFormSel method (parseContentType ct).1 = FormSel.errUnsupported := by
  intro ct i hidx hbad
  have hct : parseContentType ct = ([], []) := by
    simp only [parseContentType, hidx]
    by_cases hlast : i = ct.length - 1
    · rw [if_pos hlast]
    · rw [if_neg hlast, if_pos hbad]
  refine ⟨hct, ?_⟩
  intro method hm
  rw [hct]
  have h1 : ([] : List Char) ≠ "application/x-www-form-urlencoded".data := by decide
  have h2 : ([] : List Char) ≠ "multipart/form-data".data := by decide
  rcases hm with rfl | rfl
  · simp [parseFormSel, h1, h2]
  · simp [parseFormSel, h1, h2]

/-- Witness for C9: the claim's own example header value. -/
theorem c9_witness :
    parseContentType "application/x-www-form-urlencoded; charset=UTF-8".data = ([], []) ∧
    parseFormSel "POST"
      (parseContentType "application/x-www-form-urlencoded; charset=UTF-8".data).1
      = FormSel.errUnsupported :=
  ⟨(c9_non_boundary_param_clears_content_type
      "application/x-www-form-urlencoded; charset=UTF-8".data 33 (by decide) (by decide)).1,
   (c9_non_boundary_param_clears_content_type
      "application/x-www-form-urlencoded; charset=UTF-8".data 33 (by decide) (by decide)).2
     "POST" (Or.inl rfl)⟩

/-- `splitOnChar` never returns the empty list. -/
theorem splitOnChar_ne_nil (sep : Char) : ∀ l : List Char, splitOnChar sep l ≠ [] := by
  intro l
  cases l with
  | nil => simp [splitOnChar]
  | cons c rest =>
      by_cases h : c = sep
      · simp [splitOnChar, h]
      · simp only [splitOnChar, if_neg h]
        cases hr : splitOnChar sep rest with
        | nil => simp
        | cons a t => simp

/-- The number of pieces `splitOnChar` produces is the separator count plus
one. -/
theorem splitOnChar_length (sep : Char) :
    ∀ l : List Char, (splitOnChar sep l).length = countChar sep l + 1 := by
  intro l
  induction l with
  | nil => rfl
  | cons c rest ih =>
      by_cases h : c = sep
      · simp only [splitOnChar, if_pos h, List.length_cons, ih, countChar, List.filter]
        rw [h]
        simp [countChar]
      · simp only [splitOnChar, if_neg h]
        cases hr : splitOnChar sep rest with
        | nil => exact absurd hr (splitOnChar_ne_nil sep rest)
        | cons a t =>
            have hcc : countChar sep (c :: rest) = countChar sep rest := by
              simp [countChar, List.filter, h]
            rw [hcc, ← ih, hr]
            simp

/-- **C10** (confirmed).  A `Content-Disposition` segment containing two or
more `=` characters splits into at least three pieces, so `getKV` drops it
entirely (both key and value empty); therefore `FileName()` is empty for a
part whose filename attribute contains an `=`, a part whose name attribute
contains an `=` has `FormName()` empty, and the `ReadForm` loop skips any
part whose form name is empty. -/
theorem c10_multi_eq_attribute_dropped :
    (∀ s : List Char, 2 ≤ countChar '=' s → getKV s = ([], [])) ∧
    parseFormData "form-data; name=\"f\"; filename=\"a=b.txt\"".data = ("f".data, []) ∧
    parseFormData "form-data; name=\"a=b\"".data = ([], []) ∧
    (∀ (st : FormState) (fn : String) (sz : Nat),
        formStep st ⟨"", fn, sz⟩ = Except.ok st) := by
  refine ⟨?_, by decide, by decide, ?_⟩
  · intro s hc
    have hl : (splitOnChar '=' s).length = countChar '=' s + 1 := splitOnChar_length '=' s
    have hne : (splitOnChar '=' s).length ≠ 2 := by omega
    simp only [getKV, if_pos hne]
  · intro st fn sz
    simp [formStep]

/-- Witness for C10's universally quantified conjuncts at concrete inputs. -/
theorem c10_witness :
    getKV " filename=\"a=b.txt\"".data = ([], []) ∧
    formStep ⟨10485760, 31457280, [], [], [], 0⟩ ⟨"", "x.bin", 5⟩
      = Except.ok ⟨10485760, 31457280, [], [], [], 0⟩ :=
  ⟨c10_multi_eq_attribute_dropped.1 " filename=\"a=b.txt\"".data (by decide),
   c10_multi_eq_attribute_dropped.2.2.2 ⟨10485760, 31457280, [], [], [], 0⟩ "x.bin" 5⟩

/-- **C5** (confirmed).  `setupBody`'s selection: a method other than POST
and PUT gets the immediately-exhausted reader (which yields no bytes);
`Transfer-Encoding: chunked` selects the chunked-decoding reader for any
header set, Content-Length present or not; otherwise a present
Content-Length that `ParseInt` accepts gives a reader bounded to that many
bytes, and when the value is non-negative and the stream long enough the
drain yields exactly that many bytes; an unparsable Content-Length degrades
to the immediately-exhausted reader rather than an error; and with no
Content-Length the body is immediately exhausted. -/
theorem c5_setupBody_selection :
    (∀ (m : String) (h : HeaderL) (s : List Nat), m ≠ "POST" → m ≠ "PUT" →
        setupBody m h = BodyKind.eofR ∧ bodyYield (setupBody m h) s = []) ∧
    (∀ (m : String) (h : HeaderL), (m = "POST" ∨ m = "PUT") →
        hdrGet h "Transfer-Encoding" = "chunked" →
        setupBody m h = BodyKind.chunkedR) ∧
    (∀ (m : String) (h : HeaderL) (n : Int), (m = "POST" ∨ m = "PUT") →
        hdrGet h "Transfer-Encoding" ≠ "chunked" →
        hdrGet h "Content-Length" ≠ "" →
        parseIntGo (hdrGet h "Content-Length") = some n →
        setupBody m h = BodyKind.limitR n) ∧
    (∀ (n : Int) (s : List Nat), 0 ≤ n → n.toNat ≤ s.length →
        bodyYield (BodyKind.limitR n) s = s.take n.toNat ∧
        (bodyYield (BodyKind.limitR n) s).length = n.toNat) ∧
    (∀ (m : String) (h : HeaderL), (m = "POST" ∨ m = "PUT") →
        hdrGet h "Transfer-Encoding" ≠ "chunked" →
        hdrGet h "Content-Length" ≠ "" →
        parseIntGo (hdrGet h "Content-Length") = none →
        setupBody m h = BodyKind.eofR) ∧
    (∀ (m : String) (h : HeaderL), (m = "POST" ∨ m = "PUT") →
        hdrGet h "Transfer-Encoding" ≠ "chunked" →
        hdrGet h "Content-Length" = "" →
        setupBody m h = BodyKind.eofR) := by
  refine ⟨?_, ?_, ?_, ?_, ?_, ?_⟩
  · intro m h s h1 h2
    have hsel : setupBody m h = BodyKind.eofR := by
      simp only [setupBody, if_pos (And.intro h1 h2)]
    exact ⟨hsel, by rw [hsel]; rfl⟩
  · intro m h hm hte
    have hnot : ¬ (m ≠ "POST" ∧ m ≠ "PUT") := by
      rcases hm with rfl | rfl <;> simp
    have hchunk : reqChunked h = true := by simp [reqChunked, hte]
    simp only [setupBody, if_neg hnot, hchunk, if_true]
  · intro m h n hm hte hcl hp
    have hnot : ¬ (m ≠ "POST" ∧ m ≠ "PUT") := by
      rcases hm with rfl | rfl <;> simp
    have hchunk : ¬ (reqChunked h = true) := by simp [reqChunked, hte]
    simp only [setupBody, if_neg hnot, if_neg hchunk, if_pos hcl, hp]
  · intro n s _ hlen
    refine ⟨rfl, ?_⟩
    show (s.take n.toNat).length = n.toNat
    rw [List.length_take]
    omega
  · intro m h hm hte hcl hp
    have hnot : ¬ (m ≠ "POST" ∧ m ≠ "PUT") := by
      rcases hm with rfl | rfl <;> simp
    have hchunk : ¬ (reqChunked h = true) := by simp [reqChunked, hte]
    simp only [setupBody, if_neg hnot, if_neg hchunk, if_pos hcl, hp]
  · intro m h hm hte hcl
    have hnot : ¬ (m ≠ "POST" ∧ m ≠ "PUT") := by
      rcases hm with rfl | rfl <;> simp
    have hchunk : ¬ (reqChunked h = true) := by simp [reqChunked, hte]
    have hcl2 : ¬ (hdrGet h "Content-Length" ≠ "") := by simp [hcl]
    simp only [setupBody, if_neg hnot, if_neg hchunk, if_neg hcl2]

/-- Witness for C5 at concrete requests. -/
theorem c5_witness :
    (setupBody "GET" [("Content-Length", "12")] = BodyKind.eofR ∧
      bodyYield (setupBody "GET" [("Content-Length", "12")]) [9, 9] = []) ∧
    setupBody "POST" [("Transfer-Encoding", "chunked"), ("Content-Length", "5")]
      = BodyKind.chunkedR ∧
    setupBody "POST" [("Content-Length", "12")] = BodyKind.limitR 12 ∧
    (bodyYield (BodyKind.limitR 2) [5, 6, 7] = [5, 6, 7].take (Int.toNat 2) ∧
      (bodyYield (BodyKind.limitR 2) [5, 6, 7]).length = Int.toNat 2) ∧
    setupBody "POST" [("Content-Length", "12a")] = BodyKind.eofR ∧
    setupBody "PUT" [] = BodyKind.eofR :=
  ⟨c5_setupBody_selection.1 "GET" [("Content-Length", "12")] [9, 9] (by decide) (by decide),
   c5_setupBody_selection.2.1 "POST" [("Transfer-Encoding", "chunked"), ("Content-Length", "5")]
     (Or.inl rfl) (by decide),
   c5_setupBody_selection.2.2.1 "POST" [("Content-Length", "12")] 12
     (Or.inl rfl) (by decide) (by decide) (by decide),
   c5_setupBody_selection.2.2.2.1 2 [5, 6, 7] (by decide) (by decide),
   c5_setupBody_selection.2.2.2.2.1 "POST" [("Content-Length", "12a")]
     (Or.inl rfl) (by decide) (by decide) (by decide),
   c5_setupBody_selection.2.2.2.2.2 "PUT" [] (Or.inr rfl) (by decide) (by decide)⟩

theorem hexVal_hexDigitByte (d : Nat) (h : d < 16) : hexVal (hexDigitByte d) = some d := by
  interval_cases d <;> rfl

theorem natToHexB_mem (n : Nat) : ∀ b ∈ natToHexB n, 48 ≤ b ∧ b ≤ 102 := by
  induction n using Nat.strong_induction_on with
  | _ n ih =>
      intro b hb
      rw [natToHexB] at hb
      by_cases h : n < 16
      · rw [dif_pos h] at hb
        simp only [List.mem_singleton] at hb
        subst hb
        unfold hexDigitByte
        split <;> omega
      · rw [dif_neg h] at hb
        rcases List.mem_append.1 hb with h1 | h1
        · exact ih (n / 16) (Nat.div_lt_self (by omega) (by omega)) b h1
        · simp only [List.mem_singleton] at h1
          subst h1
          unfold hexDigitByte
          split <;> omega

theorem getChunkSize_natToHexB (n : Nat) : getChunkSize (natToHexB n) = some n := by
  induction n using Nat.strong_induction_on with
  | _ n ih =>
      by_cases h : n < 16
      · rw [natToHexB, dif_pos h]
        show getChunkSize [hexDigitByte n] = some n
        simp [getChunkSize, gcsStep, hexVal_hexDigitByte n h]
      · rw [natToHexB, dif_neg h]
        show List.foldl gcsStep (some 0) (natToHexB (n / 16) ++ [hexDigitByte (n % 16)]) = some n
        rw [List.foldl_append]
        have ihh : List.foldl gcsStep (some 0) (natToHexB (n / 16)) = some (n / 16) :=
          ih (n / 16) (Nat.div_lt_self (by omega) (by omega))
        rw [ihh]
        simp only [List.foldl_cons, List.foldl_nil, gcsStep,
          hexVal_hexDigitByte (n % 16) (by omega)]
        congr 1
        omega

theorem foldl_gcsStep_none (l : List Nat) : l.foldl gcsStep none = none := by
  induction l with
  | nil => rfl
  | cons b t ih =>
      have hstep : gcsStep none b = none := by
        unfold gcsStep
        cases hexVal b <;> rfl
      simp only [List.foldl_cons, hstep, ih]

theorem foldl_gcsStep_bad :
    ∀ (line : List Nat) (acc : Option Nat) (b : Nat), b ∈ line → hexVal b = none →
      line.foldl gcsStep acc = none := by
  intro line
  induction line with
  | nil => intro acc b hb; exact absurd hb (List.not_mem_nil b)
  | cons c t ih =>
      intro acc b hb hv
      rcases List.mem_cons.1 hb with rfl | hbt
      · have hstep : gcsStep acc b = none := by
          unfold gcsStep
          cases acc with
          | none => cases hexVal b <;> rfl
          | some a => rw [hv]
        simp only [List.foldl_cons, hstep, foldl_gcsStep_none]
      · simp only [List.foldl_cons]
        exact ih (gcsStep acc c) b hbt hv

theorem getChunkSize_bad (line : List Nat) (b : Nat) (hb : b ∈ line)
    (hv : hexVal b = none) : getChunkSize line = none :=
  foldl_gcsStep_bad line (some 0) b hb hv


theorem splitAtNL_append (A r : List Nat) (h : 10 ∉ A) :
    splitAtNL (A ++ 10 :: r) = some (A, r) := by
  induction A with
  | nil => simp [splitAtNL]
  | cons a t ih =>
      have ha : a ≠ 10 := by intro hh; exact h (hh ▸ List.mem_cons_self a t)
      have ht : 10 ∉ t := fun hh => h (List.mem_cons_of_mem a hh)
      simp only [List.cons_append, splitAtNL, if_neg ha, List.append_eq, ih ht]

theorem stripCR_append13 (A : List Nat) : stripCR (A ++ [13]) = A := by
  unfold stripCR
  rw [if_pos]
  · exact List.dropLast_concat ▸ (by simp)
  · simp

theorem readLineB_crlf (A rest : List Nat) (h10 : 10 ∉ A) :
    readLineB (A ++ [13, 10] ++ rest) = some (A, rest) := by
  have hsplit : splitAtNL (A ++ [13, 10] ++ rest) = some (A ++ [13], rest) := by
    have h13 : 10 ∉ A ++ [13] := by
      intro hh
      rcases List.mem_append.1 hh with h1 | h1
      · exact h10 h1
      · simp at h1
    have hassoc : A ++ [13, 10] ++ rest = (A ++ [13]) ++ 10 :: rest := by simp
    rw [hassoc]
    exact splitAtNL_append (A ++ [13]) rest h13
  simp only [readLineB, hsplit, stripCR_append13]

theorem chunkRead_frame (c E : List Nat) (plen : Nat) (hc : c ≠ [])
    (hlen : c.length < plen) :
    chunkRead ⟨0, false⟩ (natToHexB c.length ++ [13, 10] ++ (c ++ [13, 10] ++ E)) plen
      = ⟨c, ⟨0, false⟩, E, none⟩ := by
  have hA10 : (10 : Nat) ∉ natToHexB c.length := by
    intro hmem
    have := natToHexB_mem c.length 10 hmem
    omega
  have hgs : getSizeLine (natToHexB c.length ++ [13, 10] ++ (c ++ [13, 10] ++ E))
      = Except.ok (c.length, c ++ [13, 10] ++ E) := by
    simp only [getSizeLine, readLineB_crlf _ _ hA10, getChunkSize_natToHexB]
  have hm0 : ¬ (c.length = 0) := by
    simpa using hc
  have hmp : ¬ (plen ≤ c.length) := by omega
  have htake : (c ++ [13, 10] ++ E).take c.length = c := by
    rw [List.append_assoc]
    exact List.take_left c ([13, 10] ++ E)
  have hdrop : (c ++ [13, 10] ++ E).drop c.length = [13, 10] ++ E := by
    rw [List.append_assoc]
    exact List.drop_left c ([13, 10] ++ E)
  have hdisc : ChunkReader.discardCRLF (13 :: 10 :: E) = (none, E) := by
    unfold ChunkReader.discardCRLF
    rw [if_pos (by simp)]
    simp
  simp only [chunkRead, hgs, if_neg hm0, if_neg hmp, htake, hdrop]
  simp [hc, hmp, hdisc]

theorem chunkDrain_encodeChunks :
    ∀ (cs : List (List Nat)) (plen fuel : Nat),
      (∀ c ∈ cs, c ≠ [] ∧ c.length < plen) → cs.length + 2 ≤ fuel →
      chunkDrain plen fuel ⟨0, false⟩ (encodeChunks cs) = (cs.flatten, none) := by
  intro cs
  induction cs with
  | nil =>
      intro plen fuel _ hf
      match fuel, hf with
      | f + 2, _ => rfl
  | cons c cs' ih =>
      intro plen fuel hc hf
      cases fuel with
      | zero => omega
      | succ f =>
        have hcne : c ≠ [] := (hc c (List.mem_cons_self c cs')).1
        have hclen : c.length < plen := (hc c (List.mem_cons_self c cs')).2
        have henc : encodeChunks (c :: cs')
            = natToHexB c.length ++ [13, 10] ++ (c ++ [13, 10] ++ encodeChunks cs') := by
          simp [encodeChunks, chunkFrame, crlfB]
        have hread := chunkRead_frame c (encodeChunks cs') plen hcne hclen
        show (let r := chunkRead ⟨0, false⟩ (encodeChunks (c :: cs')) plen
              match r.err with
              | some RdErr.eofE => (r.bytes, none)
              | some e => (r.bytes, some e)
              | none =>
                  let rest := chunkDrain plen f r.st r.rest
                  (r.bytes ++ rest.1, rest.2)) = ((c :: cs').flatten, none)
        rw [henc, hread]
        show (c ++ (chunkDrain plen f ⟨0, false⟩ (encodeChunks cs')).1,
              (chunkDrain plen f ⟨0, false⟩ (encodeChunks cs')).2) = ((c :: cs').flatten, none)
        rw [ih plen f (fun x hx => hc x (List.mem_cons_of_mem c hx)) (by simp only [List.length_cons] at hf; omega)]
        simp


/-- **C6** (confirmed).  Round-trip of the chunked encoding: for every
finite sequence of non-empty chunk payloads (each `chunkWriter.Write` call
frames one, and the buffered writer feeding `chunkWriter` never issues an
empty write), decoding the framed wire image — terminal `0\r\n\r\n`
included — through repeated `chunkReader.Read` calls whose buffer exceeds
each chunk's length yields exactly the concatenated payloads with no error;
and the chunk-size parser fails on any line containing a non-hexadecimal
byte. -/
theorem c6_chunk_roundtrip :
    (∀ (cs : List (List Nat)) (plen fuel : Nat),
        (∀ c ∈ cs, c ≠ [] ∧ c.length < plen) → cs.length + 2 ≤ fuel →
        chunkDrain plen fuel ⟨0, false⟩ (encodeChunks cs) = (cs.flatten, none)) ∧
    (∀ (line : List Nat) (b : Nat), b ∈ line → hexVal b = none →
        getChunkSize line = none) :=
  ⟨chunkDrain_encodeChunks, getChunkSize_bad⟩

/-- Witness for C6: a two-chunk body round-trips, and a size line holding
`'g'` is rejected. -/
theorem c6_witness :
    chunkDrain 5 4 ⟨0, false⟩ (encodeChunks [[97], [98, 99]]) = ([[97], [98, 99]].flatten, none) ∧
    getChunkSize [103] = none :=
  ⟨c6_chunk_roundtrip.1 [[97], [98, 99]] 5 4 (by decide) (by decide),
   c6_chunk_roundtrip.2 [103] 103 (by decide) (by decide)⟩

end Httpd
